import Mathlib

/-!
Shallow embedding of the snake-patrol-bot core (src/main.py): the
schedule-extraction engine (class Planner) and the time-windowed forecast
cache (class Synoptic), together with theorems settling the spec claims.

Times are modelled as integers (epoch seconds).  The time-window bounds
that the Python code derives from calendar dates are taken as parameters,
matching the spec contract extractSchedule(rows, windowStart, windowEnd).
String tests follow the decimal-digit reading of the source predicates
(str.isdigit, int()).
-/

/-- A resolved person: row 0 of the sheet holds the display name, row 1 the
messaging handle (Planner.find_person builds this dict). -/
structure Person where
  name : String
  telegram_handler : String
deriving DecidableEq, Repr

/-- A shift record as built by Planner.form_schedule. -/
structure Shift where
  time_start : Int
  time_end : Int
  people : List Person
deriving DecidableEq, Repr

/-- Decimal digit test on a character, the per-character reading of
Python str.isdigit for the decimal range. -/
def isDigitChar (c : Char) : Bool := decide ('0' ≤ c) && decide (c ≤ '9')

/-- Python str.isdigit: nonempty and every character a decimal digit
(stated over the character list of the string). -/
def isDigitStr (s : String) : Bool := (!(s.data.isEmpty)) && s.data.all isDigitChar

/-- Python int() on a digit string: fold decimal digits left to right. -/
def strToNat (s : String) : Nat :=
  s.data.foldl (fun n c => 10 * n + (c.toNat - Char.toNat '0')) 0

/-- Left-to-right Option sequencing over a list: the embedding of a Python
loop whose body may raise, where a raise discards all partial results. -/
def optionMapM {σ τ : Type} (f : σ → Option τ) : List σ → Option (List τ)
  | [] => some []
  | x :: xs => do
    let y ← f x
    let ys ← optionMapM f xs
    pure (y :: ys)

namespace Planner

/-- The row test of Planner.find_shifts (src/main.py lines 70-73): the row is
nonempty, column 0 is a digit string, and its value lies in the half-open
window.  The window bounds are the timestamp_range_start / timestamp_range_end
the Python code computes from calendar dates. -/
def shiftRowQualifies (ws we : Int) (row : List String) : Bool :=
  match row with
  | [] => false
  | c0 :: _ =>
      isDigitStr c0 && (decide (ws ≤ (strToNat c0 : Int)) && decide ((strToNat c0 : Int) < we))

/-- Planner.find_shifts: keep exactly the qualifying rows, in input order. -/
def find_shifts (values : List (List String)) (ws we : Int) : List (List String) :=
  values.filter (shiftRowQualifies ws we)

/-- Planner.assign_people (src/main.py lines 76-81): for i in
range(2, len(shift) - 1), include i iff shift[i] is exactly the string "0". -/
def assign_people (shift : List String) : List Nat :=
  (List.range' 2 (shift.length - 1 - 2)).filter (fun i => shift.getD i "" == "0")

/-- Planner.find_person (src/main.py lines 83-87): look the column up in
header rows 0 and 1; an out-of-range access is an IndexError, modelled as
none. -/
def find_person (values : List (List String)) (column : Nat) : Option Person := do
  let r0 ← values[0]?
  let r1 ← values[1]?
  let name ← r0[column]?
  let th ← r1[column]?
  pure { name := name, telegram_handler := th }

/-- Planner.form_schedule (src/main.py lines 89-102): one Shift per
qualifying row, time_end fixed at time_start + 3600 * 2, people resolved via
find_person; any IndexError aborts the whole call (none). -/
def form_schedule (values : List (List String)) (ws we : Int) : Option (List Shift) :=
  optionMapM
    (fun shift => do
      let people ← optionMapM (find_person values) (assign_people shift)
      pure { time_start := (strToNat (shift.headI) : Int),
             time_end := (strToNat (shift.headI) : Int) + 3600 * 2,
             people := people })
    (find_shifts values ws we)

end Planner

/-- One hourly forecast record emitted by Synoptic.forecast_for_time_range:
the opaque source fields (data) plus the two synthesized time fields. -/
structure ForecastPiece (α : Type) where
  data : α
  time_start : Int
  time_end : Int
deriving DecidableEq, Repr

/-- The persisted stormglass cache file: its raw content and its
last-modified time (os.path.getmtime). -/
structure CacheFile (β : Type) where
  content : β
  mtime : Int
deriving DecidableEq, Repr

/-- The observable outcome of Synoptic.__init__: the cache file afterwards,
the parsed stormglass data (none = the constructor raised), and whether an
external fetch was attempted. -/
structure InitOutcome (β γ : Type) where
  cache : Option (CacheFile β)
  data : Option γ
  fetched : Bool
deriving DecidableEq, Repr

namespace Synoptic

/-- The final read-and-parse step of Synoptic.__init__ (src/main.py lines
134-135): open the cache file (absent = FileNotFoundError = none) and
json.load its content (parse failure = none). -/
def readParse {β γ : Type} (parse : β → Option γ) : Option (CacheFile β) → Option γ
  | none => none
  | some f => parse f.content

/-- Synoptic.__init__ (src/main.py lines 106-135).  update_cache is false iff
the cache file exists and now - mtime < 3 hours.  If updating, the external
fetch result is: none = a transport exception from requests.get, which
propagates out of the constructor before any read; some (status, body) = a
response.  Only status 200 overwrites the cache file, with the body verbatim
and mtime now.  Finally the cache file is read and parsed. -/
def init {β γ : Type} (parse : β → Option γ) (now : Int) (cache : Option (CacheFile β))
    (fetchResult : Option (Nat × β)) : InitOutcome β γ :=
  let update_cache : Bool :=
    match cache with
    | some f => !(decide (now - f.mtime < 3 * 3600))
    | none => true
  if update_cache then
    match fetchResult with
    | none => { cache := cache, data := none, fetched := true }
    | some (status, body) =>
        let cache' := if status = 200 then some { content := body, mtime := now } else cache
        { cache := cache', data := readParse parse cache', fetched := true }
  else
    { cache := cache, data := readParse parse cache, fetched := false }

/-- Synoptic.forecast_for_time_range (src/main.py lines 137-146).  The parsed
data is some hours when the payload has an hours key, none otherwise.  Hour
i (in payload order) gets forecast_piece_time = time_start + i * 3600 and is
kept iff time_start ≤ forecast_piece_time < time_end. -/
def forecast_for_time_range {α : Type} (d : Option (List α)) (time_start time_end : Int) :
    List (ForecastPiece α) :=
  match d with
  | none => []
  | some hours =>
      hours.enum.filterMap (fun ip =>
        let t := time_start + (ip.1 : Int) * 3600
        if time_start ≤ t ∧ t < time_end then
          some { data := ip.2, time_start := t, time_end := t + 3600 }
        else none)

end Synoptic

/-- The observable outcome of a full getForecast call: the cache file
afterwards, the projected forecast (none = the call failed), and whether an
external fetch was attempted. -/
structure ForecastOutcome (β α : Type) where
  cache : Option (CacheFile β)
  result : Option (List (ForecastPiece α))
  fetched : Bool
deriving DecidableEq, Repr

/-- The full forecast pipeline: Synoptic.__init__ followed by
forecast_for_time_range on the requested window (main.py lines 181-188).
The parsed payload is some hours iff the JSON parses and has an hours key. -/
def getForecast {β α : Type} (parse : β → Option (Option (List α))) (now : Int)
    (cache : Option (CacheFile β)) (fetchResult : Option (Nat × β))
    (ws we : Int) : ForecastOutcome β α :=
  let o := Synoptic.init parse now cache fetchResult
  { cache := o.cache,
    result := o.data.map (fun d => Synoptic.forecast_for_time_range d ws we),
    fetched := o.fetched }

/-- Modelled from the spec: the projection as §4.2 words it, with hour i
anchored at the fetch-time now (fetchAnchor), included iff
window.start ≤ fetchAnchor + i * 3600 < window.end.  Written for comparison
with the source projection, which anchors at the caller window start. -/
def specAnchoredProjection {α : Type} (fetchAnchor : Int) (d : Option (List α))
    (ws we : Int) : List (ForecastPiece α) :=
  match d with
  | none => []
  | some hours =>
      hours.enum.filterMap (fun ip =>
        let t := fetchAnchor + (ip.1 : Int) * 3600
        if ws ≤ t ∧ t < we then
          some { data := ip.2, time_start := t, time_end := t + 3600 }
        else none)

/-! ### Helper lemmas about the Option sequencing and filterMap -/

theorem optionMapM_eq_none {σ τ : Type} (f : σ → Option τ) (l : List σ) (x : σ)
    (hx : x ∈ l) (hf : f x = none) : optionMapM f l = none := by
  induction l with
  | nil => cases hx
  | cons a as ih =>
    rcases List.mem_cons.mp hx with h | h
    · subst h; simp [optionMapM, hf]
    · cases hfa : f a <;> simp [optionMapM, hfa, ih h]

theorem optionMapM_length {σ τ : Type} (f : σ → Option τ) (l : List σ) (l' : List τ)
    (h : optionMapM f l = some l') : l'.length = l.length := by
  induction l generalizing l' with
  | nil =>
    simp [optionMapM] at h
    subst h; rfl
  | cons a as ih =>
    cases hfa : f a with
    | none => simp [optionMapM, hfa] at h
    | some y =>
      cases hrest : optionMapM f as with
      | none => simp [optionMapM, hfa, hrest] at h
      | some ys =>
        simp [optionMapM, hfa, hrest] at h
        subst h
        simp [ih ys hrest]

theorem optionMapM_mem {σ τ : Type} (f : σ → Option τ) (l : List σ) (l' : List τ)
    (h : optionMapM f l = some l') (y : τ) (hy : y ∈ l') : ∃ x ∈ l, f x = some y := by
  induction l generalizing l' with
  | nil =>
    simp [optionMapM] at h
    subst h; cases hy
  | cons a as ih =>
    cases hfa : f a with
    | none => simp [optionMapM, hfa] at h
    | some z =>
      cases hrest : optionMapM f as with
      | none => simp [optionMapM, hfa, hrest] at h
      | some ys =>
        simp [optionMapM, hfa, hrest] at h
        subst h
        rcases List.mem_cons.mp hy with h | h
        · exact ⟨a, List.mem_cons_self a as, by rw [hfa, h]⟩
        · obtain ⟨x, hxl, hxy⟩ := ih ys hrest h
          exact ⟨x, List.mem_cons_of_mem a hxl, hxy⟩

theorem filterMap_eq_map_filter {γ δ : Type} (f : γ → Option δ) (p : γ → Bool) (g : γ → δ)
    (hfg : ∀ x, f x = if p x then some (g x) else none) (l : List γ) :
    l.filterMap f = (l.filter p).map g := by
  induction l with
  | nil => rfl
  | cons a as ih =>
    by_cases hp : p a
    · simp [List.filterMap_cons, hfg a, hp, ih]
    · simp [List.filterMap_cons, hfg a, hp, ih]

/-! ### Claim theorems: schedule extraction -/

/-- C4: for every row, the assigned-people list contains column index i
(with 2 ≤ i and i + 2 ≤ row length, i.e. i at most the second-to-last
column) iff cell i is exactly the string "0"; the indices are in strictly
ascending column order; and the last column index is never included. -/
theorem assign_people_characterization (row : List String) :
    (∀ i : Nat, i ∈ Planner.assign_people row ↔
      (2 ≤ i ∧ i + 2 ≤ row.length ∧ row.getD i "" = "0"))
    ∧ (Planner.assign_people row).Sorted (· < ·)
    ∧ (∀ i : Nat, i ∈ Planner.assign_people row → i ≠ row.length - 1) := by
  have hmem : ∀ i : Nat, i ∈ Planner.assign_people row ↔
      (2 ≤ i ∧ i + 2 ≤ row.length ∧ row.getD i "" = "0") := by
    intro i
    unfold Planner.assign_people
    rw [List.mem_filter, List.mem_range'_1, beq_iff_eq]
    exact ⟨fun h => ⟨h.1.1, by omega, h.2⟩, fun h => ⟨⟨h.1, by omega⟩, h.2.2⟩⟩
  constructor
  · exact hmem
  constructor
  · exact List.Pairwise.sublist (List.filter_sublist _) (List.pairwise_lt_range' 2 _)
  · intro i hi
    have h := (hmem i).mp hi
    omega

/-- C4 witness: on the concrete row, column 2 (cell "0") is assigned. -/
theorem assign_people_characterization_witness :
    2 ∈ Planner.assign_people ["t", "a", "0", "1", "0"] :=
  ((assign_people_characterization ["t", "a", "0", "1", "0"]).1 2).mpr (by decide)

/-- C5: a row whose column 0 is not a pure decimal-digit string, or whose
numeric value lies outside the half-open window, is silently skipped: it
never appears among the found shift rows, and every emitted Shift comes from
a found shift row (the schedule has exactly one Shift per qualifying row),
so the skipped row contributes no Shift. -/
theorem skipped_rows_contribute_nothing (values : List (List String)) (ws we : Int)
    (row : List String) (c0 : String) (rest : List String)
    (hrow : row = c0 :: rest)
    (hbad : isDigitStr c0 = false
      ∨ ¬(ws ≤ (strToNat c0 : Int) ∧ (strToNat c0 : Int) < we)) :
    row ∉ Planner.find_shifts values ws we
    ∧ ∀ sched, Planner.form_schedule values ws we = some sched →
        sched.length = (Planner.find_shifts values ws we).length := by
  constructor
  · intro hmem
    have hq : Planner.shiftRowQualifies ws we row = true :=
      (List.mem_filter.mp hmem).2
    rw [hrow] at hq
    unfold Planner.shiftRowQualifies at hq
    simp only [Bool.and_eq_true, decide_eq_true_eq] at hq
    rcases hbad with h | h
    · rw [h] at hq; exact Bool.false_ne_true hq.1
    · exact h ⟨hq.2.1, hq.2.2⟩
  · intro sched hs
    exact optionMapM_length _ _ _ hs

/-- C5 witness: the row with non-numeric column 0 is not among the found
shift rows. -/
theorem skipped_rows_contribute_nothing_witness :
    ["abc", "0", "0", "x"] ∉ Planner.find_shifts [["abc", "0", "0", "x"]] 0 10 :=
  (skipped_rows_contribute_nothing [["abc", "0", "0", "x"]] 0 10
    ["abc", "0", "0", "x"] "abc" ["0", "0", "x"] rfl (Or.inl (by rfl))).1

/-- C6: every Shift in a successfully formed schedule has
time_end - time_start = 7200: the 2-hour duration is the fixed constant
3600 * 2, never read from the row data. -/
theorem shift_duration_fixed (values : List (List String)) (ws we : Int)
    (sched : List Shift) (h : Planner.form_schedule values ws we = some sched)
    (s : Shift) (hs : s ∈ sched) : s.time_end - s.time_start = 7200 := by
  obtain ⟨row, _, hf⟩ := optionMapM_mem _ _ _ h s hs
  cases hp : optionMapM (Planner.find_person values) (Planner.assign_people row) with
  | none => rw [hp] at hf; simp at hf
  | some people =>
    rw [hp] at hf
    simp only [Option.bind_eq_bind, Option.some_bind, Option.pure_def,
      Option.some.injEq] at hf
    rw [← hf]
    simp only []
    omega

/-- C6 witness: the theorem applied to a concrete one-row sheet. -/
theorem shift_duration_fixed_witness :
    (Shift.mk 100 7300 []).time_end - (Shift.mk 100 7300 []).time_start = 7200 :=
  shift_duration_fixed [["100", "a"]] 0 200 [Shift.mk 100 7300 []] (by rfl)
    (Shift.mk 100 7300 []) (by decide)

/-- C7: the literal scenario: three rows (name header, handle header, one
shift row at 1700000000 with cell 2 = "0" and cell 3 = "1"), window
[1700000000, 1700003600): exactly one Shift, 2 hours long, with the single
person Alice / @a resolved from column 2. -/
theorem literal_scenario :
    Planner.form_schedule
      [["name", "", "Alice", "Bob", ""], ["handle", "", "@a", "@b", ""],
       ["1700000000", "shift1", "0", "1", ""]] 1700000000 1700003600
    = some [{ time_start := 1700000000, time_end := 1700007200,
              people := [{ name := "Alice", telegram_handler := "@a" }] }] := by
  rfl

/-- C3: for a qualifying data row and an included column index i, person
resolution reads name from header row 0 and handle from header row 1 at
column i; if row 1 is absent or either header row is shorter than i + 1,
the whole extraction call fails (none): no default is substituted and no
partial schedule is returned. -/
theorem person_resolution (values : List (List String)) (ws we : Int)
    (row : List String) (i : Nat)
    (hrow : row ∈ Planner.find_shifts values ws we)
    (hi : i ∈ Planner.assign_people row) :
    (∀ r0 r1, values[0]? = some r0 → values[1]? = some r1 →
        i < r0.length → i < r1.length →
        Planner.find_person values i =
          some { name := r0.getD i "", telegram_handler := r1.getD i "" })
    ∧ ((values[1]? = none
        ∨ (∃ r0, values[0]? = some r0 ∧ r0.length ≤ i)
        ∨ (∃ r1, values[1]? = some r1 ∧ r1.length ≤ i)) →
        Planner.form_schedule values ws we = none) := by
  constructor
  · intro r0 r1 h0 h1 hi0 hi1
    unfold Planner.find_person
    rw [h0, h1]
    simp [List.getElem?_eq_getElem hi0, List.getElem?_eq_getElem hi1,
      List.getD_eq_getElem?_getD, Option.getD]
  · intro hbad
    have hfp : Planner.find_person values i = none := by
      unfold Planner.find_person
      rcases hbad with h | ⟨r0, h0, hlen⟩ | ⟨r1, h1, hlen⟩
      · rw [h]
        cases values[0]? <;> rfl
      · rw [h0]
        simp only [Option.bind_eq_bind, Option.some_bind]
        cases h1v : values[1]? with
        | none => rfl
        | some r1 =>
          simp only [Option.some_bind]
          rw [List.getElem?_eq_none hlen]
          rfl
      · cases h0v : values[0]? with
        | none => rfl
        | some r0 =>
          simp only [Option.bind_eq_bind, Option.some_bind]
          rw [h1]
          simp only [Option.some_bind]
          cases hn : r0[i]? with
          | none => rfl
          | some name =>
            simp only [Option.some_bind]
            rw [List.getElem?_eq_none hlen]
            rfl
    have hpeople : optionMapM (Planner.find_person values) (Planner.assign_people row)
        = none := optionMapM_eq_none _ _ i hi hfp
    unfold Planner.form_schedule
    apply optionMapM_eq_none _ _ row hrow
    simp [hpeople]

/-- C3 witness: with only two rows, the data row itself at index 0 and a
second row, column 2 resolves to the cells of rows 0 and 1 at column 2. -/
theorem person_resolution_witness :
    Planner.find_person [["5", "x", "0", "y"], ["h", "g", "@z", "w"]] 2
      = some { name := "0", telegram_handler := "@z" } :=
  (person_resolution [["5", "x", "0", "y"], ["h", "g", "@z", "w"]] 0 10
    ["5", "x", "0", "y"] 2 (by decide) (by decide)).1
    ["5", "x", "0", "y"] ["h", "g", "@z", "w"] rfl rfl (by decide) (by decide)

/-! ### Claim theorems: forecast cache and projection -/

/-- C1 counterexample: a fetch at now = 0 (so the fetch anchor is 0) and a
request for window [3600, 7200) on the two-hour payload [10, 20].  The
spec-worded fetch-anchored projection picks payload hour 1 (data 20); the
source picks payload hour 0 (data 10), anchoring at the window start. -/
theorem fetch_anchor_counterexample :
    (getForecast (fun (b : Option (List Nat)) => some b) 0 none
        (some (200, some [10, 20])) 3600 7200).result
      ≠ some (specAnchoredProjection 0 (some [10, 20]) 3600 7200) := by
  decide

/-- C1 amended: the projection assigns hour i the value
time_start = window.start + i * 3600 — the anchor is the caller window
start, not the fetch-time now — includes hour i iff
window.start ≤ time_start < window.end, and emits hours in payload order:
the source projection coincides with the spec-worded projection when that
one is anchored at the window start. -/
theorem projection_anchored_at_window_start {α : Type} (d : Option (List α)) (ws we : Int) :
    Synoptic.forecast_for_time_range d ws we = specAnchoredProjection ws d ws we := by
  cases d <;> rfl

/-- C10: since the projection anchors at the caller window start, inclusion
of payload hour i depends only on i and the window length:
hour i is kept iff i * 3600 < time_end - time_start, with the filtered
hours kept in payload order; in particular for any non-degenerate window
and non-empty payload, payload hour 0 is always the first result, covering
[time_start, time_start + 3600). -/
theorem forecast_inclusion_window_only {α : Type} (hours : List α) (ws we : Int) :
    Synoptic.forecast_for_time_range (some hours) ws we
      = (hours.enum.filter (fun ip => decide ((ip.1 : Int) * 3600 < we - ws))).map
          (fun ip => { data := ip.2, time_start := ws + (ip.1 : Int) * 3600,
                       time_end := ws + (ip.1 : Int) * 3600 + 3600 })
    ∧ (∀ (p : α) (rest : List α), hours = p :: rest → ws < we →
        (Synoptic.forecast_for_time_range (some hours) ws we).head? =
          some { data := p, time_start := ws, time_end := ws + 3600 }) := by
  have hmain : Synoptic.forecast_for_time_range (some hours) ws we
      = (hours.enum.filter (fun ip => decide ((ip.1 : Int) * 3600 < we - ws))).map
          (fun ip => { data := ip.2, time_start := ws + (ip.1 : Int) * 3600,
                       time_end := ws + (ip.1 : Int) * 3600 + 3600 }) := by
    unfold Synoptic.forecast_for_time_range
    apply filterMap_eq_map_filter
    intro ip
    by_cases h : (ip.1 : Int) * 3600 < we - ws
    · rw [if_pos (by omega : ws ≤ ws + (ip.1 : Int) * 3600 ∧ ws + (ip.1 : Int) * 3600 < we),
        if_pos (by exact decide_eq_true h)]
    · rw [if_neg (by omega : ¬(ws ≤ ws + (ip.1 : Int) * 3600 ∧ ws + (ip.1 : Int) * 3600 < we)),
        if_neg (by simpa using h)]
  refine ⟨hmain, ?_⟩
  intro p rest hcons hlt
  subst hcons
  rw [hmain]
  rw [List.enum_cons, List.filter_cons_of_pos (by simp; omega)]
  simp

/-- C10 witness: on the one-hour payload [7] and window [0, 3600), payload
hour 0 is the first (and only) projected hour. -/
theorem forecast_inclusion_window_only_witness :
    (Synoptic.forecast_for_time_range (some [7]) 0 3600).head? =
      some { data := 7, time_start := 0, time_end := 0 + 3600 } :=
  (forecast_inclusion_window_only [7] 0 3600).2 7 [] rfl (by decide)

/-- C2 counterexample: the cache entry is 4 hours old (now = 14400,
mtime = 0) and holds the parseable payload with hours [5]; the refresh
fetch fails with a network error (a transport exception, modelled as no
response at all).  The claim predicts the projection of the stale entry;
the source instead lets the exception propagate out of the constructor,
so the call fails (no result). -/
theorem stale_network_error_counterexample :
    (getForecast (fun (b : Option (List Nat)) => some b) 14400
        (some { content := some [5], mtime := 0 }) none 0 3600).result
      ≠ some (Synoptic.forecast_for_time_range (some [5]) 0 3600) := by
  decide

/-- C2 amended: with a cache entry at least the 3-hour threshold old, a
refresh fetch that fails with a NON-SUCCESS STATUS CODE leaves the stale
entry in place and the call returns its projection for the requested
window; a network error (transport exception) instead fails the whole
call. -/
theorem stale_fallback_on_bad_status {β α : Type} (parse : β → Option (Option (List α)))
    (now : Int) (f : CacheFile β) (status : Nat) (body : β) (ws we : Int)
    (hstale : 3 * 3600 ≤ now - f.mtime) (hstatus : status ≠ 200) :
    (getForecast parse now (some f) (some (status, body)) ws we).result
      = (parse f.content).map (fun d => Synoptic.forecast_for_time_range d ws we)
    ∧ (getForecast parse now (some f) (some (status, body)) ws we).cache = some f := by
  have hage : (10800 : Int) ≤ now - f.mtime := by omega
  constructor <;>
    simp [getForecast, Synoptic.init, Synoptic.readParse, hage, hstatus]

/-- C2 amended witness: a 4-hour-old entry with hours [5], a 500-status
fetch, and window [0, 3600): the stale projection is returned and the
entry survives. -/
theorem stale_fallback_on_bad_status_witness :
    (getForecast (fun (b : Option (List Nat)) => some b) 14400
        (some { content := some [5], mtime := 0 }) (some (500, some [])) 0 3600).result
      = some [{ data := 5, time_start := 0, time_end := 3600 }] :=
  ((stale_fallback_on_bad_status (fun (b : Option (List Nat)) => some b) 14400
    { content := some [5], mtime := 0 } 500 (some []) 0 3600
    (by decide) (by decide)).1).trans (by rfl)

/-- C9: whenever the fetch result is anything but a status-200 response
(a network error, or any non-success status), the persisted cache entry
after the constructor equals the entry before it, content and mtime both;
the entry is only ever overwritten on a success-status fetch. -/
theorem cache_preserved_on_failed_fetch {β γ : Type} (parse : β → Option γ) (now : Int)
    (cache : Option (CacheFile β)) (fr : Option (Nat × β))
    (h : ∀ b, fr ≠ some (200, b)) :
    (Synoptic.init parse now cache fr).cache = cache := by
  have hs : ∀ s b, fr = some (s, b) → s ≠ 200 := by
    intro s b hsb hseq
    exact h b (by rw [hsb, hseq])
  cases cache with
  | none =>
    cases hfr : fr with
    | none => simp [Synoptic.init]
    | some sb =>
      obtain ⟨s, b⟩ := sb
      simp [Synoptic.init, hs s b hfr]
  | some f =>
    cases hfr : fr with
    | none =>
      simp only [Synoptic.init]
      split <;> rfl
    | some sb =>
      obtain ⟨s, b⟩ := sb
      simp [Synoptic.init, hs s b hfr]
      split <;> rfl

/-- C9 witness: a 500-status response leaves the concrete entry as it
was. -/
theorem cache_preserved_on_failed_fetch_witness :
    (Synoptic.init (fun (b : Nat) => some b) 0
        (some { content := 7, mtime := 0 }) (some (500, 9))).cache
      = some { content := 7, mtime := 0 } :=
  cache_preserved_on_failed_fetch (fun (b : Nat) => some b) 0
    (some { content := 7, mtime := 0 }) (some (500, 9))
    (fun b hb => by simp at hb)

/-- A fresh cache entry (younger than 3 hours) makes the constructor skip
the fetch and read the entry as is. -/
theorem init_fresh_stable {β γ : Type} (parse : β → Option γ) (now : Int)
    (f : CacheFile β) (fr : Option (Nat × β)) (hfresh : now - f.mtime < 3 * 3600) :
    Synoptic.init parse now (some f) fr
      = { cache := some f, data := Synoptic.readParse parse (some f), fetched := false } := by
  have hle : ¬((10800 : Int) ≤ now - f.mtime) := by omega
  simp [Synoptic.init, hle]

/-- The constructor skips the fetch iff a cache entry exists and is younger
than the 3-hour staleness threshold. -/
theorem init_fetched_false_iff {β γ : Type} (parse : β → Option γ) (now : Int)
    (cache : Option (CacheFile β)) (fr : Option (Nat × β)) :
    (Synoptic.init parse now cache fr).fetched = false
      ↔ ∃ f, cache = some f ∧ now - f.mtime < 3 * 3600 := by
  constructor
  · intro hf
    cases cache with
    | none =>
      exfalso
      cases fr with
      | none => simp [Synoptic.init] at hf
      | some sb => obtain ⟨s, b⟩ := sb; simp [Synoptic.init] at hf
    | some f =>
      by_cases hfresh : now - f.mtime < 3 * 3600
      · exact ⟨f, rfl, hfresh⟩
      · exfalso
        have hle : (10800 : Int) ≤ now - f.mtime := by omega
        cases fr with
        | none => simp [Synoptic.init, hle] at hf
        | some sb => obtain ⟨s, b⟩ := sb; simp [Synoptic.init, hle] at hf
  · rintro ⟨f, rfl, hfresh⟩
    rw [init_fresh_stable parse now f fr hfresh]

/-- A successful (status 200) fetch on a stale-or-absent entry overwrites
the entry with the response body, stamped at now, and reads it back. -/
theorem init_success_overwrites {β γ : Type} (parse : β → Option γ) (now : Int)
    (cache : Option (CacheFile β)) (b : β)
    (hstale : ¬∃ f, cache = some f ∧ now - f.mtime < 3 * 3600) :
    Synoptic.init parse now cache (some (200, b))
      = { cache := some { content := b, mtime := now }, data := parse b, fetched := true } := by
  cases cache with
  | none => simp [Synoptic.init, Synoptic.readParse]
  | some f =>
    have hf : ¬(now - f.mtime < 3 * 3600) := fun hc => hstale ⟨f, rfl, hc⟩
    have hle : (10800 : Int) ≤ now - f.mtime := by omega
    simp [Synoptic.init, hle, Synoptic.readParse]

/-- After a first constructor run that either skipped the fetch or fetched
successfully, a second run at the same clock skips the fetch and reads the
same data. -/
theorem init_second_call {β γ : Type} (parse : β → Option γ) (now : Int)
    (cache : Option (CacheFile β)) (f1 f2 : Option (Nat × β))
    (h : (Synoptic.init parse now cache f1).fetched = false ∨ ∃ b, f1 = some (200, b)) :
    (Synoptic.init parse now (Synoptic.init parse now cache f1).cache f2).fetched = false
    ∧ (Synoptic.init parse now (Synoptic.init parse now cache f1).cache f2).data
        = (Synoptic.init parse now cache f1).data := by
  by_cases hfresh : ∃ f, cache = some f ∧ now - f.mtime < 3 * 3600
  · obtain ⟨f, rfl, hff⟩ := hfresh
    rw [init_fresh_stable parse now f f1 hff]
    rw [init_fresh_stable parse now f f2 hff]
    exact ⟨rfl, rfl⟩
  · rcases h with hf | ⟨b, rfl⟩
    · exact absurd ((init_fetched_false_iff parse now cache f1).mp hf) hfresh
    · rw [init_success_overwrites parse now cache b hfresh]
      have hnew : now - (CacheFile.mk b now).mtime < 3 * 3600 := by
        show now - now < 3 * 3600
        omega
      rw [init_fresh_stable parse now (CacheFile.mk b now) f2 hnew]
      exact ⟨rfl, rfl⟩

/-- C8 counterexample: with an already-fresh cache entry (written at the
same clock instant), two successive calls perform ZERO external fetches,
not exactly one: the "exactly one fetch across the two calls" claim fails
when the entry starts out fresh. -/
theorem single_fetch_counterexample :
    ¬((if (Synoptic.init (fun (b : Option (List Nat)) => some b) 0
            (some { content := some [1], mtime := 0 }) (some (200, some [2]))).fetched
        then (1 : Nat) else 0)
      + (if (Synoptic.init (fun (b : Option (List Nat)) => some b) 0
              (Synoptic.init (fun (b : Option (List Nat)) => some b) 0
                (some { content := some [1], mtime := 0 }) (some (200, some [2]))).cache
              (some (200, some [3]))).fetched
          then (1 : Nat) else 0) = 1) := by
  decide

/-- C8 amended: if the first call either finds the entry fresh (and so
performs no fetch) or fetches with success status 200, then a second call
at the same clock and for the same window performs no external fetch and
returns the same result — hence at most one fetch happens across the two
calls.  (As stated, "exactly one fetch" fails: a fresh entry yields zero
fetches, and a failed first fetch can yield two.) -/
theorem second_call_no_fetch {β α : Type} (parse : β → Option (Option (List α)))
    (now : Int) (cache : Option (CacheFile β)) (f1 f2 : Option (Nat × β)) (ws we : Int)
    (h : (getForecast parse now cache f1 ws we).fetched = false ∨ ∃ b, f1 = some (200, b)) :
    (getForecast parse now (getForecast parse now cache f1 ws we).cache f2 ws we).fetched
      = false
    ∧ (getForecast parse now (getForecast parse now cache f1 ws we).cache f2 ws we).result
      = (getForecast parse now cache f1 ws we).result := by
  have h' : (Synoptic.init parse now cache f1).fetched = false
      ∨ ∃ b, f1 = some (200, b) := h
  obtain ⟨h2f, h2d⟩ := init_second_call parse now cache f1 f2 h'
  refine ⟨h2f, ?_⟩
  show Option.map (fun d => Synoptic.forecast_for_time_range d ws we)
        (Synoptic.init parse now (Synoptic.init parse now cache f1).cache f2).data
      = Option.map (fun d => Synoptic.forecast_for_time_range d ws we)
        (Synoptic.init parse now cache f1).data
  rw [h2d]

/-- C8 amended witness: with an absent cache and a successful first fetch
at now = 14400, the second call skips the fetch and agrees with the
first. -/
theorem second_call_no_fetch_witness :
    (getForecast (fun (b : Option (List Nat)) => some b) 14400
        (getForecast (fun (b : Option (List Nat)) => some b) 14400 none
          (some (200, some [4])) 0 3600).cache
        none 0 3600).fetched = false
    ∧ (getForecast (fun (b : Option (List Nat)) => some b) 14400
        (getForecast (fun (b : Option (List Nat)) => some b) 14400 none
          (some (200, some [4])) 0 3600).cache
        none 0 3600).result
      = (getForecast (fun (b : Option (List Nat)) => some b) 14400 none
          (some (200, some [4])) 0 3600).result :=
  second_call_no_fetch (fun (b : Option (List Nat)) => some b) 14400 none
    (some (200, some [4])) none 0 3600 (Or.inr ⟨some [4], rfl⟩)
